import Mathlib

/-!
Verification of the WebSocket relay in `src/visualization/index.js`.

The program keeps two mutable globals, `visSocket` and `prismSocket`,
both starting as `null`.  On each incoming connection `ws`:
if `visSocket == null` then `visSocket = ws` else `prismSocket = ws`;
afterwards, if `prismSocket !== null`, a message handler is attached to
the current `prismSocket`.  The handler, on a message `m`, checks
`visSocket !== null` and, if so, sends the template-literal string
coercion of `m` to `visSocket`.

We embed the program as a state machine.  Connections are identified
by the order of arrival (0, 1, 2, ...), generated by a counter
`nextConn`.  The field `handlers` lists, in attachment order, the
connections to which a message handler has been attached (a connection
may in principle appear several times, once per attachment).  The field
`sent` is the log of all `send` calls, oldest first, as pairs of the
destination connection and the payload.
-/

/-- A WebSocket message payload.  The `ws` library delivers a text frame
as a JavaScript string and a binary frame as a `Buffer` of bytes. -/
inductive Msg where
  | text (s : String)
  | binary (bytes : List Nat)
deriving DecidableEq, Repr

/-- JavaScript string coercion of a message, as performed by the
template literal in `visSocket.send(` followed by the interpolation of
`message` and the closing backtick.  A string coerces to itself; a
`Buffer` coerces via its UTF-8 decoding (modelled here as ASCII bytes
decoding to themselves and other bytes to the replacement character,
which is all the claims need: the result is a string either way). -/
def msgToStr : Msg → String
  | .text s => s
  | .binary bytes => String.mk (bytes.map fun b =>
      if b < 128 then Char.ofNat b else Char.ofNat 0xFFFD)

/-- The relay state: the two globals of the program, the set of attached
message handlers, the log of sends, and the fresh-connection counter. -/
@[ext]
structure RelayState where
  visSocket : Option Nat
  prismSocket : Option Nat
  handlers : List Nat
  sent : List (Nat × Msg)
  nextConn : Nat
deriving DecidableEq, Repr

/-- Initial state: `let visSocket = null` and `let prismSocket = null`,
no handlers attached, nothing sent, no connection accepted yet. -/
def initState : RelayState :=
  { visSocket := none, prismSocket := none, handlers := [], sent := [], nextConn := 0 }

/-- External events driving the program: a new incoming connection, or a
message `m` arriving on connection `c`. -/
inductive Event where
  | connect
  | message (c : Nat) (m : Msg)
deriving DecidableEq, Repr

/-- The body of one attached message handler, from the source:
`message => { console.log(message); if(visSocket!==null) visSocket.send(...) }`.
Sending appends the string coercion of the message, as a text frame, to
the send log; the `console.log` has no modelled effect. -/
def runHandler (vis : Option Nat) (m : Msg) (sent : List (Nat × Msg)) :
    List (Nat × Msg) :=
  match vis with
  | some v => sent ++ [(v, Msg.text (msgToStr m))]
  | none => sent

/-- A message event on connection `c`: every handler attached to `c`
fires, in attachment order, each executing `runHandler` against the
current `visSocket`. -/
def onMessage (s : RelayState) (c : Nat) (m : Msg) : RelayState :=
  let sent1 := s.handlers.foldl
    (fun acc h => if h = c then runHandler s.visSocket m acc else acc) s.sent
  { s with sent := sent1 }

/-- The connection callback, from the source: if `visSocket == null`
then `visSocket = ws` else `prismSocket = ws`; then, if
`prismSocket !== null`, attach a message handler to `prismSocket`.
The new connection is given the next fresh identifier. -/
def onConnection (s : RelayState) : RelayState :=
  let ws := s.nextConn
  let s1 := if s.visSocket = none
            then { s with visSocket := some ws }
            else { s with prismSocket := some ws }
  let s2 := match s1.prismSocket with
            | some p => { s1 with handlers := s1.handlers ++ [p] }
            | none => s1
  { s2 with nextConn := s.nextConn + 1 }

/-- One step of the event loop. -/
def step (s : RelayState) : Event → RelayState
  | .connect => onConnection s
  | .message c m => onMessage s c m

/-- Running a sequence of events from a state, in order. -/
def run (s : RelayState) (evs : List Event) : RelayState :=
  evs.foldl step s

/-- A state is reachable when some event sequence produces it from the
initial state. -/
def Reachable (s : RelayState) : Prop :=
  ∃ evs : List Event, run initState evs = s

/-! Section: Basic unfolding lemmas -/

lemma run_nil (s : RelayState) : run s [] = s := rfl

lemma run_cons (s : RelayState) (e : Event) (evs : List Event) :
    run s (e :: evs) = run (step s e) evs := rfl

lemma run_append (s : RelayState) (a b : List Event) :
    run s (a ++ b) = run (run s a) b :=
  List.foldl_append step s a b

lemma onMessage_visSocket (s : RelayState) (c : Nat) (m : Msg) :
    (onMessage s c m).visSocket = s.visSocket := rfl

lemma onMessage_prismSocket (s : RelayState) (c : Nat) (m : Msg) :
    (onMessage s c m).prismSocket = s.prismSocket := rfl

lemma onMessage_handlers (s : RelayState) (c : Nat) (m : Msg) :
    (onMessage s c m).handlers = s.handlers := rfl

lemma onMessage_nextConn (s : RelayState) (c : Nat) (m : Msg) :
    (onMessage s c m).nextConn = s.nextConn := rfl

lemma onConnection_nextConn (s : RelayState) :
    (onConnection s).nextConn = s.nextConn + 1 := rfl

lemma onConnection_of_vis_none (s : RelayState) (hv : s.visSocket = none)
    (hp : s.prismSocket = none) :
    onConnection s =
      { s with visSocket := some s.nextConn, nextConn := s.nextConn + 1 } := by
  simp [onConnection, hv, hp]

lemma onConnection_of_vis_none_prism_some (s : RelayState) (hv : s.visSocket = none)
    (p : Nat) (hp : s.prismSocket = some p) :
    onConnection s =
      { s with visSocket := some s.nextConn,
               handlers := s.handlers ++ [p],
               nextConn := s.nextConn + 1 } := by
  simp [onConnection, hv, hp]

lemma onConnection_of_vis_some (s : RelayState) (hv : s.visSocket ≠ none) :
    onConnection s =
      { s with prismSocket := some s.nextConn,
               handlers := s.handlers ++ [s.nextConn],
               nextConn := s.nextConn + 1 } := by
  simp [onConnection, hv]

/-! Section: The effect of a message event on the send log -/

lemma foldl_append_if_count {α : Type} (c : Nat) (x : α) :
    ∀ (hs : List Nat) (acc : List α),
      hs.foldl (fun acc h => if h = c then acc ++ [x] else acc) acc
        = acc ++ List.replicate (hs.count c) x := by
  intro hs
  induction hs with
  | nil => intro acc; simp
  | cons h t ih =>
    intro acc
    by_cases hc : h = c
    · subst hc
      rw [List.foldl_cons, if_pos rfl, ih, List.count_cons_self, List.append_assoc]
      congr 1
    · simp [hc, ih, List.count_cons]

lemma onMessage_sent_of_vis_some (s : RelayState) (c : Nat) (m : Msg) (v : Nat)
    (hv : s.visSocket = some v) :
    (onMessage s c m).sent
      = s.sent ++ List.replicate (s.handlers.count c) (v, Msg.text (msgToStr m)) := by
  have hfun : (fun (acc : List (Nat × Msg)) h =>
      if h = c then runHandler s.visSocket m acc else acc)
      = fun acc h => if h = c then acc ++ [(v, Msg.text (msgToStr m))] else acc := by
    funext acc h
    simp [runHandler, hv]
  simp only [onMessage, hfun]
  exact foldl_append_if_count c (v, Msg.text (msgToStr m)) s.handlers s.sent

lemma onMessage_of_vis_none (s : RelayState) (c : Nat) (m : Msg)
    (hv : s.visSocket = none) :
    onMessage s c m = s := by
  have hfun : (fun (acc : List (Nat × Msg)) h =>
      if h = c then runHandler s.visSocket m acc else acc)
      = fun acc _ => acc := by
    funext acc h
    simp [runHandler, hv]
  simp only [onMessage, hfun, List.foldl_fixed]

/-! Section: Preservation lemmas for event sequences -/

lemma run_no_connect (evs : List Event) :
    ∀ (s : RelayState), (∀ e ∈ evs, e ≠ Event.connect) →
      (run s evs).visSocket = s.visSocket ∧
      (run s evs).prismSocket = s.prismSocket ∧
      (run s evs).handlers = s.handlers ∧
      (run s evs).nextConn = s.nextConn := by
  induction evs with
  | nil => intro s _; simp [run]
  | cons e t ih =>
    intro s h
    have he : e ≠ Event.connect := h e (List.mem_cons_self e t)
    have ht : ∀ e ∈ t, e ≠ Event.connect := fun e hm => h e (List.mem_cons_of_mem _ hm)
    cases e with
    | connect => exact absurd rfl he
    | message c m =>
      rw [run_cons]
      have := ih (step s (Event.message c m)) ht
      simpa [step, onMessage_visSocket, onMessage_prismSocket,
        onMessage_handlers, onMessage_nextConn] using this

lemma step_vis_persist (s : RelayState) (e : Event) (v : Nat)
    (hv : s.visSocket = some v) : (step s e).visSocket = some v := by
  cases e with
  | connect =>
    rw [step, onConnection_of_vis_some s (by simp [hv])]
    exact hv
  | message c m => simpa [step, onMessage_visSocket] using hv

lemma run_vis_persist (evs : List Event) :
    ∀ (s : RelayState) (v : Nat), s.visSocket = some v →
      (run s evs).visSocket = some v := by
  induction evs with
  | nil => intro s v hv; simpa [run] using hv
  | cons e t ih =>
    intro s v hv
    rw [run_cons]
    exact ih _ v (step_vis_persist s e v hv)

lemma step_handlers_persist (s : RelayState) (e : Event) (c : Nat)
    (hc : c ∈ s.handlers) : c ∈ (step s e).handlers := by
  cases e with
  | connect =>
    by_cases hv : s.visSocket = none
    · by_cases hp : s.prismSocket = none
      · rw [step, onConnection_of_vis_none s hv hp]; exact hc
      · obtain ⟨p, hp'⟩ := Option.ne_none_iff_exists'.mp hp
        rw [step, onConnection_of_vis_none_prism_some s hv p hp']
        exact List.mem_append_left _ hc
    · rw [step, onConnection_of_vis_some s hv]
      exact List.mem_append_left _ hc
  | message _ m => simpa [step, onMessage_handlers] using hc

lemma run_handlers_persist (evs : List Event) :
    ∀ (s : RelayState) (c : Nat), c ∈ s.handlers → c ∈ (run s evs).handlers := by
  induction evs with
  | nil => intro s c hc; simpa [run] using hc
  | cons e t ih =>
    intro s c hc
    rw [run_cons]
    exact ih _ c (step_handlers_persist s e c hc)

/-! Section: The reachability invariant -/

/-- Invariant of reachable relay states: all recorded connections have
identifiers below the counter; once `visSocket` is set it holds a
connection that carries no handler and differs from `prismSocket`; and
while `visSocket` is unset nothing else has happened. -/
def RelayInv (s : RelayState) : Prop :=
  (∀ c ∈ s.handlers, c < s.nextConn) ∧
  (∀ p, s.prismSocket = some p → p < s.nextConn) ∧
  (∀ v, s.visSocket = some v → v < s.nextConn) ∧
  (∀ v, s.visSocket = some v → v ∉ s.handlers ∧ s.prismSocket ≠ some v) ∧
  (s.visSocket = none → s.prismSocket = none ∧ s.handlers = [])

lemma relayInv_initState : RelayInv initState := by
  refine ⟨?_, ?_, ?_, ?_, ?_⟩ <;> simp [initState]

lemma relayInv_step (s : RelayState) (e : Event) (h : RelayInv s) : RelayInv (step s e) := by
  obtain ⟨h1, h2, h3, h4, h5⟩ := h
  cases e with
  | message c m =>
    exact ⟨h1, h2, h3, h4, h5⟩
  | connect =>
    by_cases hv : s.visSocket = none
    · obtain ⟨hp, hh⟩ := h5 hv
      rw [step, onConnection_of_vis_none s hv hp]
      dsimp only [RelayInv]
      refine ⟨?_, ?_, ?_, ?_, ?_⟩
      · intro c hc
        exact absurd (hh ▸ hc) (List.not_mem_nil c)
      · intro p hp'
        rw [hp] at hp'
        exact absurd hp' (Option.noConfusion)
      · intro v hv'
        rw [Option.some_inj] at hv'
        omega
      · intro v hv'
        rw [Option.some_inj] at hv'
        subst hv'
        refine ⟨by simp [hh], by simp [hp]⟩
      · intro hcontra
        exact absurd hcontra (by simp)
    · rw [step, onConnection_of_vis_some s hv]
      obtain ⟨v, hv'⟩ := Option.ne_none_iff_exists'.mp hv
      have hvlt : v < s.nextConn := h3 v hv'
      dsimp only [RelayInv]
      refine ⟨?_, ?_, ?_, ?_, ?_⟩
      · intro c hc
        simp only [List.mem_append, List.mem_singleton] at hc
        rcases hc with hc | hc
        · exact Nat.lt_succ_of_lt (h1 c hc)
        · omega
      · intro p hp'
        simp only [Option.some_inj] at hp'
        omega
      · intro w hw
        exact Nat.lt_succ_of_lt (h3 w hw)
      · intro w hw
        rw [hv'] at hw
        rw [Option.some_inj] at hw
        subst hw
        constructor
        · simp only [List.mem_append, List.mem_singleton]
          rintro (hin | hin)
          · exact (h4 v hv').1 hin
          · omega
        · simp only [ne_eq, Option.some_inj]
          omega
      · intro hcontra
        rw [hv'] at hcontra
        exact absurd hcontra (Option.noConfusion)

lemma relayInv_run (evs : List Event) :
    ∀ (s : RelayState), RelayInv s → RelayInv (run s evs) := by
  induction evs with
  | nil => intro s h; simpa [run] using h
  | cons e t ih =>
    intro s h
    rw [run_cons]
    exact ih _ (relayInv_step s e h)

lemma relayInv_of_reachable (s : RelayState) (h : Reachable s) : RelayInv s := by
  obtain ⟨evs, hevs⟩ := h
  exact hevs ▸ relayInv_run evs initState relayInv_initState

lemma onMessage_eq_self_of_not_handler (s : RelayState) (c : Nat) (m : Msg)
    (hc : c ∉ s.handlers) : onMessage s c m = s := by
  have hsent : (onMessage s c m).sent = s.sent := by
    cases hvis : s.visSocket with
    | none => rw [onMessage_of_vis_none s c m hvis]
    | some v =>
      rw [onMessage_sent_of_vis_some s c m v hvis,
        List.count_eq_zero_of_not_mem hc]
      simp
  apply RelayState.ext <;> first | rfl | exact hsent

/-! Section: Claim theorems -/

/-- C2: for every sequence of incoming connections, the first connection
accepted (identifier 0) is assigned to the visualization slot and the second
connection accepted (identifier 1) is assigned to the prism slot, regardless of
any message activity before, between, or at the two connection events. -/
theorem second_connection_becomes_prism (evs1 evs2 : List Event)
    (h1 : ∀ e ∈ evs1, e ≠ Event.connect) (h2 : ∀ e ∈ evs2, e ≠ Event.connect) :
    (run initState (evs1 ++ Event.connect :: (evs2 ++ [Event.connect]))).visSocket
        = some 0 ∧
    (run initState (evs1 ++ Event.connect :: (evs2 ++ [Event.connect]))).prismSocket
        = some 1 := by
  obtain ⟨k1v, k1p, k1h, k1n⟩ := run_no_connect evs1 initState h1
  have hrw : run initState (evs1 ++ Event.connect :: (evs2 ++ [Event.connect]))
      = step (run (step (run initState evs1) Event.connect) evs2) Event.connect := by
    rw [run_append, run_cons, run_append, run_cons, run_nil]
  set s1 := run initState evs1 with hs1def
  have hs1v : s1.visSocket = none := by rw [k1v]; rfl
  have hs1p : s1.prismSocket = none := by rw [k1p]; rfl
  have hs1n : s1.nextConn = 0 := by rw [k1n]; rfl
  have hstep1 : step s1 Event.connect =
      { s1 with visSocket := some 0, nextConn := 1 } := by
    rw [step, onConnection_of_vis_none s1 hs1v hs1p, hs1n]
  set s2 := step s1 Event.connect with hs2def
  obtain ⟨k2v, k2p, k2h, k2n⟩ := run_no_connect evs2 s2 h2
  have hs2v : s2.visSocket = some 0 := by rw [hstep1]
  have hs2n : s2.nextConn = 1 := by rw [hstep1]
  set s3 := run s2 evs2 with hs3def
  have hs3v : s3.visSocket = some 0 := by rw [k2v]; exact hs2v
  have hs3n : s3.nextConn = 1 := by rw [k2n]; exact hs2n
  have hfin : step s3 Event.connect =
      { s3 with prismSocket := some s3.nextConn,
                handlers := s3.handlers ++ [s3.nextConn],
                nextConn := s3.nextConn + 1 } := by
    rw [step, onConnection_of_vis_some s3 (by rw [hs3v]; simp)]
  rw [hrw, hfin]
  exact ⟨hs3v, by rw [hs3n]⟩

/-- Witness for C2 at the concrete event sequence with one message between the
two connections. -/
theorem second_connection_becomes_prism_witness :
    (run initState ([Event.message 5 (Msg.text "noise")] ++ Event.connect ::
        ([Event.message 0 (Msg.text "hi")] ++ [Event.connect]))).visSocket
        = some 0 ∧
    (run initState ([Event.message 5 (Msg.text "noise")] ++ Event.connect ::
        ([Event.message 0 (Msg.text "hi")] ++ [Event.connect]))).prismSocket
        = some 1 :=
  second_connection_becomes_prism
    [Event.message 5 (Msg.text "noise")] [Event.message 0 (Msg.text "hi")]
    (by decide) (by decide)

/-- C3 counterexample: after two connections the prism slot holds connection 1,
but a third connection replaces it with connection 2; the slots are not left
unchanged by the third connection. -/
theorem third_connection_changes_prism_slot :
    (run initState [Event.connect, Event.connect]).prismSocket = some 1 ∧
    (run initState [Event.connect, Event.connect, Event.connect]).prismSocket
        = some 2 := by
  decide

/-- C3 amended: after the first two connections have been assigned, a third
incoming connection leaves the visualization slot unchanged but replaces the
prism slot with the new connection. -/
theorem third_connection_keeps_vis_replaces_prism (s : RelayState)
    (hv : s.visSocket ≠ none) :
    (step s Event.connect).visSocket = s.visSocket ∧
    (step s Event.connect).prismSocket = some s.nextConn := by
  rw [step, onConnection_of_vis_some s hv]
  exact ⟨rfl, rfl⟩

/-- Witness for the amended C3 at the state reached by two connections. -/
theorem third_connection_keeps_vis_replaces_prism_witness :
    (step (run initState [Event.connect, Event.connect]) Event.connect).visSocket
        = (run initState [Event.connect, Event.connect]).visSocket ∧
    (step (run initState [Event.connect, Event.connect]) Event.connect).prismSocket
        = some (run initState [Event.connect, Event.connect]).nextConn :=
  third_connection_keeps_vis_replaces_prism
    (run initState [Event.connect, Event.connect]) (by decide)

/-- C6: a message event that occurs while the visualization slot is unset
leaves the state entirely unchanged: nothing is sent to any connection and no
error is raised. -/
theorem message_without_vis_is_noop (s : RelayState) (c : Nat) (m : Msg)
    (hv : s.visSocket = none) :
    step s (Event.message c m) = s :=
  onMessage_of_vis_none s c m hv

/-- Witness for C6: client B connects to an empty relay and sends a ping
before anyone else connects; nothing is delivered.  (A sole connection lands in
the visualization slot, so the state in which its message arrives has the
visualization slot unset only before it connects; here the message arrives at
the initial state.) -/
theorem message_without_vis_is_noop_witness :
    step initState (Event.message 0 (Msg.text "ping")) = initState :=
  message_without_vis_is_noop initState 0 (Msg.text "ping") rfl

/-- C7: once the visualization slot holds a connection, no sequence of later
connection or message events ever clears or overwrites it. -/
theorem vis_slot_persists (s : RelayState) (v : Nat) (hv : s.visSocket = some v)
    (evs : List Event) : (run s evs).visSocket = some v :=
  run_vis_persist evs s v hv

/-- Witness for C7: after the first connection, two more connections and a
message leave the visualization slot holding connection 0. -/
theorem vis_slot_persists_witness :
    (run (run initState [Event.connect])
        [Event.connect, Event.message 1 (Msg.text "hello"), Event.connect]).visSocket
      = some 0 :=
  vis_slot_persists (run initState [Event.connect]) 0 (by decide)
    [Event.connect, Event.message 1 (Msg.text "hello"), Event.connect]

lemma run_messages_sent (c v : Nat) (ms : List Msg) :
    ∀ (s : RelayState), s.visSocket = some v → s.handlers.count c = 1 →
      (run s (ms.map (Event.message c))).sent
        = s.sent ++ ms.map (fun m => (v, Msg.text (msgToStr m))) := by
  induction ms with
  | nil => intro s hv hc; simp [run]
  | cons m t ih =>
    intro s hv hc
    rw [List.map_cons, run_cons]
    have hstep : step s (Event.message c m) = onMessage s c m := rfl
    have h1 : (onMessage s c m).visSocket = some v := by
      rw [onMessage_visSocket]; exact hv
    have h2 : (onMessage s c m).handlers.count c = 1 := by
      rw [onMessage_handlers]; exact hc
    rw [hstep, ih (onMessage s c m) h1 h2,
      onMessage_sent_of_vis_some s c m v hv, hc]
    simp

/-- C1 counterexample: a binary message from the prism connection is delivered
as its string coercion in a text frame, not as the message received, so the
single copy forwarded is not unmodified. -/
theorem binary_message_not_forwarded_verbatim :
    (run initState
        [Event.connect, Event.connect, Event.message 1 (Msg.binary [255])]).sent
      = [(0, Msg.text (msgToStr (Msg.binary [255])))] ∧
    Msg.text (msgToStr (Msg.binary [255])) ≠ Msg.binary [255] := by
  decide

/-- C1 amended: for every message received by the handler attached to the prism
connection while the visualization slot is set, the visualization connection is
sent exactly one copy of the string coercion of the message (which coincides
with the message for text messages), and forwarded messages arrive in the order
the handler received them. -/
theorem prism_messages_forwarded_in_order (s : RelayState) (v c : Nat)
    (ms : List Msg) (hv : s.visSocket = some v) (hc : s.handlers.count c = 1) :
    (run s (ms.map (Event.message c))).sent
      = s.sent ++ ms.map (fun m => (v, Msg.text (msgToStr m))) ∧
    ∀ str : String, msgToStr (Msg.text str) = str :=
  ⟨run_messages_sent c v ms s hv hc, fun _ => rfl⟩

/-- Witness for the amended C1: after two connections, the prism connection
sends two text messages and both arrive at connection 0 in order. -/
theorem prism_messages_forwarded_in_order_witness :
    (run (run initState [Event.connect, Event.connect])
        ([Msg.text "hello", Msg.text "world"].map (Event.message 1))).sent
      = (run initState [Event.connect, Event.connect]).sent
        ++ [Msg.text "hello", Msg.text "world"].map
            (fun m => (0, Msg.text (msgToStr m))) ∧
    ∀ str : String, msgToStr (Msg.text str) = str :=
  prism_messages_forwarded_in_order (run initState [Event.connect, Event.connect])
    0 1 [Msg.text "hello", Msg.text "world"] (by decide) (by decide)

/-- C4: every connection arriving while the visualization slot is set becomes
the new prism connection with a handler attached at assignment time; handlers
are never detached by any later events, and a handler attached to an earlier
connection still forwards messages from that connection. -/
theorem later_connection_new_prism_old_handlers_persist (s : RelayState)
    (hv : s.visSocket ≠ none) :
    (step s Event.connect).prismSocket = some s.nextConn ∧
    s.nextConn ∈ (step s Event.connect).handlers ∧
    (∀ evs : List Event, ∀ c ∈ s.handlers, c ∈ (run s evs).handlers) ∧
    (∀ c v m, c ∈ s.handlers → s.visSocket = some v →
      1 ≤ s.handlers.count c ∧
      (onMessage s c m).sent
        = s.sent
          ++ List.replicate (s.handlers.count c) (v, Msg.text (msgToStr m))) := by
  refine ⟨?_, ?_, ?_, ?_⟩
  · rw [step, onConnection_of_vis_some s hv]
  · rw [step, onConnection_of_vis_some s hv]
    exact List.mem_append_right _ (List.mem_singleton.mpr rfl)
  · intro evs c hc
    exact run_handlers_persist evs s c hc
  · intro c v m hc hv'
    have hne : s.handlers.count c ≠ 0 := fun h0 => (List.count_eq_zero.mp h0) hc
    exact ⟨by omega, onMessage_sent_of_vis_some s c m v hv'⟩

/-- Witness for C4 at the state reached by two connections. -/
theorem later_connection_new_prism_old_handlers_persist_witness :
    (step (run initState [Event.connect, Event.connect]) Event.connect).prismSocket
        = some (run initState [Event.connect, Event.connect]).nextConn ∧
    (run initState [Event.connect, Event.connect]).nextConn
        ∈ (step (run initState [Event.connect, Event.connect]) Event.connect).handlers ∧
    (∀ evs : List Event,
      ∀ c ∈ (run initState [Event.connect, Event.connect]).handlers,
        c ∈ (run (run initState [Event.connect, Event.connect]) evs).handlers) ∧
    (∀ c v m, c ∈ (run initState [Event.connect, Event.connect]).handlers →
      (run initState [Event.connect, Event.connect]).visSocket = some v →
      1 ≤ (run initState [Event.connect, Event.connect]).handlers.count c ∧
      (onMessage (run initState [Event.connect, Event.connect]) c m).sent
        = (run initState [Event.connect, Event.connect]).sent
          ++ List.replicate
              ((run initState [Event.connect, Event.connect]).handlers.count c)
              (v, Msg.text (msgToStr m))) :=
  later_connection_new_prism_old_handlers_persist
    (run initState [Event.connect, Event.connect]) (by decide)

/-- C5 counterexample: the prism slot is replaced by the third connection, and
the third connection does get a message handler attached, contradicting both
the no-replacement and the silently-dropped parts of the claim. -/
theorem third_connection_replaces_prism_and_gets_handler :
    (run initState [Event.connect, Event.connect]).prismSocket = some 1 ∧
    (run initState [Event.connect, Event.connect, Event.connect]).prismSocket
        ≠ some 1 ∧
    2 ∈ (run initState [Event.connect, Event.connect, Event.connect]).handlers := by
  decide

/-- C5 amended: each slot holds at most one connection (it is a single optional
handle); the visualization slot is never replaced once set; but every
connection arriving while the visualization slot is set replaces the prism slot
and has a message handler attached to it. -/
theorem slot_occupancy_amended (s : RelayState) (v : Nat)
    (hv : s.visSocket = some v) :
    (∀ evs : List Event, (run s evs).visSocket = some v) ∧
    (step s Event.connect).prismSocket = some s.nextConn ∧
    s.nextConn ∈ (step s Event.connect).handlers := by
  refine ⟨fun evs => run_vis_persist evs s v hv, ?_, ?_⟩
  · rw [step, onConnection_of_vis_some s (by rw [hv]; simp)]
  · rw [step, onConnection_of_vis_some s (by rw [hv]; simp)]
    exact List.mem_append_right _ (List.mem_singleton.mpr rfl)

/-- Witness for the amended C5 at the state reached by one connection. -/
theorem slot_occupancy_amended_witness :
    (∀ evs : List Event, (run (run initState [Event.connect]) evs).visSocket
        = some 0) ∧
    (step (run initState [Event.connect]) Event.connect).prismSocket
        = some (run initState [Event.connect]).nextConn ∧
    (run initState [Event.connect]).nextConn
        ∈ (step (run initState [Event.connect]) Event.connect).handlers :=
  slot_occupancy_amended (run initState [Event.connect]) 0 (by decide)

/-- C8: in any reachable state, the connection in the visualization slot has no
message handler attached, and a message event on it leaves the state unchanged:
the relay is strictly one-way from prism to visualization. -/
theorem vis_connection_never_forwards (s : RelayState) (hs : Reachable s)
    (v : Nat) (hv : s.visSocket = some v) :
    v ∉ s.handlers ∧ ∀ m : Msg, step s (Event.message v m) = s := by
  obtain ⟨-, -, -, h4, -⟩ := relayInv_of_reachable s hs
  have hnot : v ∉ s.handlers := (h4 v hv).1
  exact ⟨hnot, fun m => onMessage_eq_self_of_not_handler s v m hnot⟩

/-- Witness for C8 at the state reached by two connections. -/
theorem vis_connection_never_forwards_witness :
    0 ∉ (run initState [Event.connect, Event.connect]).handlers ∧
    ∀ m : Msg, step (run initState [Event.connect, Event.connect])
        (Event.message 0 m) = run initState [Event.connect, Event.connect] :=
  vis_connection_never_forwards (run initState [Event.connect, Event.connect])
    ⟨[Event.connect, Event.connect], rfl⟩ 0 (by decide)

/-- C9: every payload delivered by a message event is the string coercion of
the received message, and for every binary message the forwarded payload
differs from the message received. -/
theorem forwarded_payload_is_string_coercion (s : RelayState) (v c : Nat)
    (m : Msg) (hv : s.visSocket = some v) :
    (onMessage s c m).sent
      = s.sent ++ List.replicate (s.handlers.count c) (v, Msg.text (msgToStr m)) ∧
    ∀ bytes : List Nat, Msg.text (msgToStr (Msg.binary bytes)) ≠ Msg.binary bytes :=
  ⟨onMessage_sent_of_vis_some s c m v hv, fun _ h => Msg.noConfusion h⟩

/-- Witness for C9 at the state reached by two connections, with a binary
message. -/
theorem forwarded_payload_is_string_coercion_witness :
    (onMessage (run initState [Event.connect, Event.connect]) 1
        (Msg.binary [104, 105])).sent
      = (run initState [Event.connect, Event.connect]).sent
        ++ List.replicate
            ((run initState [Event.connect, Event.connect]).handlers.count 1)
            (0, Msg.text (msgToStr (Msg.binary [104, 105]))) ∧
    ∀ bytes : List Nat, Msg.text (msgToStr (Msg.binary bytes)) ≠ Msg.binary bytes :=
  forwarded_payload_is_string_coercion (run initState [Event.connect, Event.connect])
    0 1 (Msg.binary [104, 105]) (by decide)

/-- C10: in every reachable state, a connection with an attached message
handler implies the visualization slot is set, and on a message event every
attached handler performs its send: the null-check inside the handler never
takes its skip branch in a reachable execution. -/
theorem handler_attached_implies_vis_set (s : RelayState) (hs : Reachable s)
    (c : Nat) (hc : c ∈ s.handlers) :
    ∃ v, s.visSocket = some v ∧ 1 ≤ s.handlers.count c ∧
      ∀ m : Msg, (step s (Event.message c m)).sent
        = s.sent ++ List.replicate (s.handlers.count c) (v, Msg.text (msgToStr m)) := by
  obtain ⟨-, -, -, -, h5⟩ := relayInv_of_reachable s hs
  cases hv : s.visSocket with
  | none =>
    obtain ⟨-, hh⟩ := h5 hv
    rw [hh] at hc
    exact absurd hc (List.not_mem_nil c)
  | some v =>
    have hne : s.handlers.count c ≠ 0 := fun h0 => (List.count_eq_zero.mp h0) hc
    exact ⟨v, rfl, by omega, fun m => onMessage_sent_of_vis_some s c m v hv⟩

/-- Witness for C10 at the state reached by two connections. -/
theorem handler_attached_implies_vis_set_witness :
    ∃ v, (run initState [Event.connect, Event.connect]).visSocket = some v ∧
      1 ≤ (run initState [Event.connect, Event.connect]).handlers.count 1 ∧
      ∀ m : Msg,
        (step (run initState [Event.connect, Event.connect])
            (Event.message 1 m)).sent
          = (run initState [Event.connect, Event.connect]).sent
            ++ List.replicate
                ((run initState [Event.connect, Event.connect]).handlers.count 1)
                (v, Msg.text (msgToStr m)) :=
  handler_attached_implies_vis_set (run initState [Event.connect, Event.connect])
    ⟨[Event.connect, Event.connect], rfl⟩ 1 (by decide)
